import Mathlib

/-!
# Verification of the BotArmy orchestration fabric

Shallow embedding of the orchestration core of the BotArmy repository
(control plane + worker runtime + event pipeline), with theorems settling
the specification claims about it.  Each definition mirrors one Python
function or code path of `src/backend/src`; machine-level details that the
claims do not touch (timestamps, socket objects, JSON encoding) are kept
abstract.
-/

namespace BotArmy

/-! ## Event stream (worker/client.py, `BackendClient.stream_events`)

The worker drains an in-process FIFO queue and sends each event over a
WebSocket.  `asyncio.Queue.get` dequeues from the front; `asyncio.Queue.put`
appends at the back.  On a send failure the code executes
`await event_queue.put(event)` and breaks out of the send loop to reconnect.

We model one connection episode over a finite burst: the queue is a list
(front at the head), `sendOk e` tells whether the WebSocket send of event
`e` succeeds during this episode.  The episode returns the events sent in
order together with the queue contents left for the next episode. -/

def streamEpisode (sendOk : Nat → Bool) : List Nat → List Nat × List Nat
  | [] => ([], [])
  | e :: rest =>
      if sendOk e then
        let result := streamEpisode sendOk rest
        (e :: result.1, result.2)
      else
        -- `await event_queue.put(event)` : append at the BACK, then break
        ([], rest ++ [e])

/-- Delivery order over a reconnect: events sent in the failing episode,
followed by the events sent after reconnecting (assuming the second
connection stays healthy, it drains the remaining queue in order). -/
def deliveryAfterReconnect (sendOk : Nat → Bool) (queue : List Nat) : List Nat :=
  let episode := streamEpisode sendOk queue
  episode.1 ++ episode.2

/-! ## Worker registry heartbeat (api/workers.py, `worker_heartbeat`)

`POST /api/workers/{id}/heartbeat` runs
`UPDATE orchestration.workers SET last_heartbeat_at = NOW(), current_agents = $2,
status = $3 WHERE id = $1 RETURNING *` and raises 404 when no row matched.
The request body (`HeartbeatRequest`) is `{current_agents: int = 0,
status: str = "online"}`; the status string is stored verbatim. -/

structure WorkerRow where
  id : Nat
  hostname : String
  current_agents : Int
  max_concurrent_agents : Int
  status : String
  last_heartbeat_at : Nat
  registered_at : Nat
  auth_token_hash : String
  deriving DecidableEq, Repr

structure HeartbeatRequest where
  current_agents : Int := 0
  status : String := "online"
  deriving DecidableEq, Repr

/-- The row update performed by the SQL `UPDATE ... WHERE id = $1`. -/
def applyHeartbeat (req : HeartbeatRequest) (now : Nat) (w : WorkerRow) : WorkerRow :=
  { w with last_heartbeat_at := now
           current_agents := req.current_agents
           status := req.status }

/-- `worker_heartbeat`: update the matching row and return it, or 404. -/
def worker_heartbeat (db : List WorkerRow) (wid : Nat) (req : HeartbeatRequest)
    (now : Nat) : Except Nat (List WorkerRow) :=
  if db.any (fun w => w.id == wid) then
    Except.ok (db.map (fun w => if w.id == wid then applyHeartbeat req now w else w))
  else
    Except.error 404

/-! ## Heartbeat loop call bindings (worker/heartbeat.py, worker/__main__.py)

`heartbeat_loop(client, config, shutdown_event)` is declared with exactly
three parameters, yet `__main__.py` starts it with
`heartbeat_loop(client, config, shutdown_event, manager)` — four positional
arguments.  Inside the loop the call is
`client.heartbeat(current_jobs=0, status="online")`, but
`BackendClient.heartbeat(self, current_agents=0, status="online")` accepts
only `current_agents` and `status` as keywords.  We embed Python's call
binding for plain positional-or-keyword parameters: a call binds iff it
passes no more positional arguments than there are parameters and every
keyword names a parameter not already bound positionally. -/

def bindsOk (params : List String) (nPos : Nat) (kwargs : List String) : Bool :=
  decide (nPos ≤ params.length) &&
  kwargs.all (fun k => (params.drop nPos).contains k)

/-- Parameters of `BackendClient.heartbeat` after `self`. -/
def backendClientHeartbeatParams : List String := ["current_agents", "status"]

/-- Keyword arguments of the call `client.heartbeat(current_jobs=0, status="online")`
inside `heartbeat_loop`. -/
def heartbeatLoopCallKwargs : List String := ["current_jobs", "status"]

/-- Parameters of `heartbeat_loop`. -/
def heartbeatLoopParams : List String := ["client", "config", "shutdown_event"]

/-- Number of positional arguments in
`heartbeat_loop(client, config, shutdown_event, manager)` in `__main__.py`. -/
def mainHeartbeatLoopCallPositional : Nat := 4

/-! ## Conversation store (db/conversations.py, `insert_turn`)

`insert_turn(universe_id, agent_id, data)` looks up the newest conversation
for `(universe_id, agent_id)` (`ORDER BY created_at DESC LIMIT 1`), INSERTs a
`turns` row, then UPDATEs the conversation aggregates.  The whole body is
wrapped in `try/except Exception`: any database error (in particular a
unique-key violation on the INSERT) makes the function return `None` with
nothing further executed, so a failed INSERT also skips the aggregate UPDATE. -/

structure Conv where
  id : Nat
  universe_id : String
  agent_id : String
  created_at : Nat
  total_iterations : Nat
  total_turns : Nat
  total_input_tokens : Nat
  total_output_tokens : Nat
  deriving DecidableEq, Repr

structure TurnRow where
  conversation_id : Nat
  turn_number : Nat
  iteration_number : Nat
  payload : String
  deriving DecidableEq, Repr

structure ConvDB where
  convs : List Conv
  turns : List TurnRow
  deriving DecidableEq, Repr

/-- The fields of an `iteration_detail` event that `insert_turn` reads. -/
structure IterationDetail where
  universe_id : String
  agent_id : String
  turn_number : Nat
  iteration : Nat
  input_tokens : Nat
  output_tokens : Nat
  payload : String
  deriving DecidableEq, Repr

/-- Fold step of `ORDER BY created_at DESC LIMIT 1`: keep the row with the
largest `created_at` seen so far. -/
def pickNewest : Option Conv → List Conv → Option Conv
  | acc, [] => acc
  | none, c :: cs => pickNewest (some c) cs
  | some b, c :: cs =>
      pickNewest (some (if b.created_at < c.created_at then c else b)) cs

/-- `SELECT id FROM conversations WHERE universe_id = $1 AND agent_id = $2
ORDER BY created_at DESC LIMIT 1`. -/
def newestConv (convs : List Conv) (u a : String) : Option Conv :=
  pickNewest none (convs.filter (fun c => c.universe_id == u && c.agent_id == a))

/-- Modelled from the spec: the migration DDL that creates
`orchestration.turns` is not under `src/` (only `db/conversations.py`, its
caller, is).  The spec states: "The `turns` table has uniqueness on
(conversation_id, turn_number, iteration_number); duplicates are ignored" —
i.e. an INSERT with an already-present key raises a unique-violation error
instead of adding a row. -/
def turnKeyPresent (turns : List TurnRow) (cid tn itn : Nat) : Bool :=
  turns.any (fun t =>
    t.conversation_id == cid && t.turn_number == tn && t.iteration_number == itn)

/-- Aggregate `UPDATE` executed after a successful turn INSERT. -/
def bumpAggregates (ev : IterationDetail) (cid : Nat) (c : Conv) : Conv :=
  if c.id == cid then
    { c with total_iterations := c.total_iterations + 1
             total_turns := max c.total_turns ev.turn_number
             total_input_tokens := c.total_input_tokens + ev.input_tokens
             total_output_tokens := c.total_output_tokens + ev.output_tokens }
  else c

/-- `insert_turn` (db/conversations.py).  Missing conversation: the turn is
dropped.  Duplicate turn key: the INSERT raises, the `except` swallows it,
and the aggregates are left untouched.  Otherwise: row appended, aggregates
bumped. -/
def insert_turn (db : ConvDB) (ev : IterationDetail) : ConvDB :=
  match newestConv db.convs ev.universe_id ev.agent_id with
  | none => db
  | some conv =>
      if turnKeyPresent db.turns conv.id ev.turn_number ev.iteration then
        db
      else
        { convs := db.convs.map (bumpAggregates ev conv.id)
          turns := db.turns ++ [⟨conv.id, ev.turn_number, ev.iteration, ev.payload⟩] }

/-- Replaying a sequence of `iteration_detail` events into the store. -/
def replayTurns (db : ConvDB) (evs : List IterationDetail) : ConvDB :=
  evs.foldl insert_turn db

/-! ## Agent loop (worker/agent_loop.py, `run_agent`)

`run_agent` sets `agent.status = "running"`, emits `agent_started`, then runs
the outer turn loop `for turn in range(1, max_turns + 1)` inside a single
`try` block.  Each turn emits `turn_start`, runs the inner tool-use loop,
emits `turn_end`, and breaks early when the last assistant message holds no
`tool_use` block.  After the loop: status `"completed"` and one `agent_done`.
`except asyncio.CancelledError`: status `"paused"`, re-raise, no terminal
event.  `except Exception`: status `"error"`, one `agent_error`.

We abstract one turn's body (inner loop, LLM calls, tool calls and their
events) into an outcome: it either completes — reporting whether the early
completion check fires — or raises cancellation or some other exception
somewhere inside the turn. -/

inductive TurnOutcome
  | ok (finished : Bool)
  | cancelled
  | err (msg : String)
  deriving DecidableEq, Repr

inductive AgentEvent
  | agent_started
  | turn_start (t : Nat)
  | turn_end (t : Nat)
  | agent_done (finalTurn : Nat)
  | agent_error (msg : String)
  deriving DecidableEq, Repr

inductive LoopExit
  | clean
  | cancelledExit
  | errExit (msg : String)
  deriving DecidableEq, Repr

/-- The outer turn loop.  `fuel` is the number of turns still allowed, `t`
the number of the next turn, `cur` the value of `agent.current_turn`.
Returns the events emitted by the loop, how it exited, and the final
`current_turn`.  An exception inside turn `t` is modelled as striking after
the `turn_start` emit. -/
def runLoop (outcomes : Nat → TurnOutcome) : Nat → Nat → Nat →
    List AgentEvent × LoopExit × Nat
  | 0, _, cur => ([], LoopExit.clean, cur)
  | fuel + 1, t, _ =>
      match outcomes t with
      | TurnOutcome.cancelled => ([AgentEvent.turn_start t], LoopExit.cancelledExit, t)
      | TurnOutcome.err m => ([AgentEvent.turn_start t], LoopExit.errExit m, t)
      | TurnOutcome.ok finished =>
          if finished then
            ([AgentEvent.turn_start t, AgentEvent.turn_end t], LoopExit.clean, t)
          else
            let rest := runLoop outcomes fuel (t + 1) t
            (AgentEvent.turn_start t :: AgentEvent.turn_end t :: rest.1,
             rest.2.1, rest.2.2)

structure RunResult where
  status : String
  events : List AgentEvent
  reraisedCancel : Bool
  deriving DecidableEq, Repr

/-- `run_agent`: emit `agent_started`, run the outer loop under the
`try/except` of the source, set the terminal status and emit the terminal
event. -/
def run_agent (outcomes : Nat → TurnOutcome) (maxTurns : Nat) : RunResult :=
  let loop := runLoop outcomes maxTurns 1 0
  let evs := AgentEvent.agent_started :: loop.1
  match loop.2.1 with
  | LoopExit.clean =>
      ⟨"completed", evs ++ [AgentEvent.agent_done loop.2.2], false⟩
  | LoopExit.cancelledExit =>
      ⟨"paused", evs, true⟩
  | LoopExit.errExit m =>
      ⟨"error", evs ++ [AgentEvent.agent_error m], false⟩

/-- Number of `agent_done` events in a trace. -/
def countDone (evs : List AgentEvent) : Nat :=
  evs.countP (fun e => match e with | AgentEvent.agent_done _ => true | _ => false)

/-- Number of `agent_error` events in a trace. -/
def countError (evs : List AgentEvent) : Nat :=
  evs.countP (fun e => match e with | AgentEvent.agent_error _ => true | _ => false)

/-! ## Tool executor paths (worker/tools.py, `safe_resolve` / `execute_tool`)

`safe_resolve(worktree_path, relative_path)` computes
`base = Path(worktree_path).resolve()`,
`target = (base / relative_path).resolve()` and raises
`ValueError(f"Path traversal blocked: {relative_path}")` unless
`str(target).startswith(str(base))` — a **string** prefix test on the
rendered absolute paths.  `execute_tool` calls `safe_resolve` first for
`read_file`, `write_file` and `list_files`; a `ValueError` is caught and
returned as `f"Error: {e}"`, before any file operation.

Absolute paths are lists of components under the root; a relative path is a
list of components where `..` pops and `.` is a no-op (the `Path.resolve`
normalisation for paths without symlinks; `..` at the root stays at the
root, as in POSIX). -/

abbrev AbsPath := List String

/-- Python's `str.startswith` / `str(...).startswith(...)`: prefix test on
the character sequence. -/
def startsWithStr (p s : String) : Bool :=
  p.data.isPrefixOf s.data

inductive PathComp
  | name (s : String)
  | dot
  | dotdot
  deriving DecidableEq, Repr

def resolveStep (acc : AbsPath) : PathComp → AbsPath
  | PathComp.name s => acc ++ [s]
  | PathComp.dot => acc
  | PathComp.dotdot => acc.dropLast

/-- `(base / relative).resolve()`. -/
def resolveRel (base : AbsPath) (rel : List PathComp) : AbsPath :=
  rel.foldl resolveStep base

/-- `str(...)` of an absolute `Path`. -/
def render (p : AbsPath) : String :=
  "/" ++ String.intercalate "/" p

/-- The original relative path string as interpolated into the error. -/
def renderRel (rel : List PathComp) : String :=
  String.intercalate "/" (rel.map (fun c =>
    match c with
    | PathComp.name s => s
    | PathComp.dot => "."
    | PathComp.dotdot => ".."))

/-- `safe_resolve`: the string-prefix containment guard. -/
def safe_resolve (worktree : AbsPath) (rel : List PathComp) :
    Except String AbsPath :=
  let target := resolveRel worktree rel
  if startsWithStr (render worktree) (render target) then
    Except.ok target
  else
    Except.error ("Path traversal blocked: " ++ renderRel rel)

/-- The path step shared by the file tools in `execute_tool`: either the
resolved target the tool goes on to read/write/list (`inl`), or the error
string returned with no file access (`inr`, via `except ValueError`). -/
def execute_file_tool (worktree : AbsPath) (rel : List PathComp) :
    AbsPath ⊕ String :=
  match safe_resolve worktree rel with
  | Except.ok p => Sum.inl p
  | Except.error m => Sum.inr ("Error: " ++ m)

/-- Directory containment proper: `t` lies inside the directory `w` iff
`w`'s components are a prefix of `t`'s components. -/
def insideDir (w t : AbsPath) : Bool :=
  w.isPrefixOf t

/-! ## Credential broker (api/workers.py, `get_worker_credential`)

`GET /api/workers/credentials/{key_name}` with `Authorization: Bearer <token>`:
reject 401 unless the header starts with `"Bearer "`; hash the token and
look up the worker row by `auth_token_hash`; 401 when none matches; 403 when
the matched worker's status is `"offline"`; 400 when `key_name` is not in
the allow-list; then `get_api_key` resolves the value (vault falling back to
the environment, empty string on miss) and an empty value yields 404.
The hash function and the secret store are parameters of the model. -/

structure CredWorker where
  id : Nat
  auth_token_hash : String
  status : String
  deriving DecidableEq, Repr

def allowedCredentialKeys : List String :=
  ["ANTHROPIC_API_KEY", "OPENAI_API_KEY", "GOOGLE_API_KEY", "GEMINI_API_KEY"]

/-- `authorization[7:]` — the characters after `"Bearer "`. -/
def tokenOfHeader (authz : String) : String :=
  String.mk (authz.data.drop 7)

def get_worker_credential (hash : String → String) (db : List CredWorker)
    (store : String → String) (keyName authz : String) :
    Except Nat (String × String) :=
  if startsWithStr "Bearer " authz then
    let tokenHash := hash (tokenOfHeader authz)
    match db.find? (fun w => w.auth_token_hash == tokenHash) with
    | none => Except.error 401
    | some w =>
        if w.status == "offline" then Except.error 403
        else if allowedCredentialKeys.contains keyName then
          let v := store keyName
          if v == "" then Except.error 404
          else Except.ok (keyName, v)
        else Except.error 400
  else
    Except.error 401

/-! ## LLM client (worker/llm_client.py, `LLMClient.chat`)

`chat` loops `for attempt in range(2)`.  Each attempt calls
`_get_api_key(force_refresh=(attempt > 0))`: returns the cached key when it
is non-empty and no refresh is forced, otherwise obtains a fresh key from
the credential provider (when configured) and caches it.  On response status
401 with `attempt == 0` and a provider configured, the loop continues (one
retry); any other non-2xx raises via `raise_for_status`; a 2xx returns the
parsed body.  The HTTP responses are modelled by the status code of each
attempt; the provider by the key it would return. -/

def getApiKey (cached : String) (provider : Option String) (force : Bool) :
    String :=
  if cached != "" && !force then cached
  else
    match provider with
    | some k => k
    | none => cached

inductive ChatOutcome
  | success
  | raised (status : Nat)
  deriving DecidableEq, Repr

structure ChatTrace where
  /-- The API key used by each HTTP attempt, in order. -/
  keysUsed : List String
  outcome : ChatOutcome
  deriving DecidableEq, Repr

def chat (cached : String) (provider : Option String) (resp : Nat → Nat) :
    ChatTrace :=
  let key0 := getApiKey cached provider false
  let s0 := resp 0
  if s0 == 401 && provider.isSome then
    let key1 := getApiKey key0 provider true
    let s1 := resp 1
    if s1 < 400 then ⟨[key0, key1], ChatOutcome.success⟩
    else ⟨[key0, key1], ChatOutcome.raised s1⟩
  else
    if s0 < 400 then ⟨[key0], ChatOutcome.success⟩
    else ⟨[key0], ChatOutcome.raised s0⟩

/-! ## Dispatcher (main.py, `dispatch_universe`)

`POST /api/universes/launch` runs
`SELECT ... FROM orchestration.workers WHERE status = 'online' AND
current_agents < max_concurrent_agents ORDER BY current_agents ASC LIMIT 1`
and raises 503 when no row comes back.  The `ORDER BY` has no secondary key,
so among rows tied on `current_agents` the one returned depends on the
scan order, not on the row contents.  We model the table as the list of rows
in scan order and the query as: filter, then keep the first row with the
least `current_agents`. -/

structure DispatchWorker where
  id : Nat
  status : String
  current_agents : Nat
  max_concurrent_agents : Nat
  registered_at : Nat
  worker_address : String
  deriving DecidableEq, Repr

def hasCapacity (w : DispatchWorker) : Bool :=
  w.status == "online" && w.current_agents < w.max_concurrent_agents

def pickLeastLoaded : Option DispatchWorker → List DispatchWorker →
    Option DispatchWorker
  | acc, [] => acc
  | none, w :: ws => pickLeastLoaded (some w) ws
  | some b, w :: ws =>
      pickLeastLoaded (some (if w.current_agents < b.current_agents then w else b)) ws

/-- The worker-selection query of `dispatch_universe`. -/
def selectWorker (rows : List DispatchWorker) : Option DispatchWorker :=
  pickLeastLoaded none (rows.filter hasCapacity)

/-- `dispatch_universe`, up to the worker choice: 503 when no online worker
with free capacity exists, otherwise the selected worker (the forward to the
worker and the 502 path are beyond this claim). -/
def dispatch_universe (rows : List DispatchWorker) :
    Except Nat DispatchWorker :=
  match selectWorker rows with
  | none => Except.error 503
  | some w => Except.ok w

/-! ## Theorems -/

/-- C1 (counterexample): with queue `[1, 2]` (event 1 produced and enqueued
before event 2) and the send of event 1 failing, `stream_events` leaves the
queue as `[2, 1]` — the failed event was appended at the BACK by
`event_queue.put(event)` — and the healthy reconnect episode then delivers
`2` before `1`, so the failed event does not precede the event enqueued
after it, contradicting the claim that it is put back at the front. -/
theorem C1_counterexample :
    (streamEpisode (fun _ => false) [1, 2]).2 = [2, 1] ∧
    (streamEpisode (fun _ => true) [2, 1]).1 = [2, 1] ∧
    ([2, 1] : List Nat) ≠ [1, 2] := by
  refine ⟨rfl, rfl, ?_⟩
  decide

/-- C1 (amended): whenever sending the event dequeued from the front of the
queue fails, `stream_events` puts it back at the BACK of the queue before
breaking out to reconnect; the rest of the burst is delivered first and the
failed event is re-delivered last among the events that were queued at
failure time, so a burst's original production order is not preserved in
general. -/
theorem C1_amended_requeue_at_back (sendOk : Nat → Bool) (e : Nat)
    (rest : List Nat) (h : sendOk e = false) :
    streamEpisode sendOk (e :: rest) = ([], rest ++ [e]) ∧
    deliveryAfterReconnect sendOk (e :: rest) = rest ++ [e] := by
  constructor
  · simp [streamEpisode, h]
  · simp [deliveryAfterReconnect, streamEpisode, h]

/-- C1 (witness): the amended statement evaluated with a failing send on
event 7 and queue `[7, 8, 9]`. -/
theorem C1_amended_requeue_at_back_witness :
    (fun _ : Nat => false) 7 = false ∧
    streamEpisode (fun _ => false) [7, 8, 9] = ([], [8, 9, 7]) :=
  ⟨rfl, (C1_amended_requeue_at_back (fun _ => false) 7 [8, 9] rfl).1⟩

/-- C2 (code evaluated at the failing input): the heartbeat loop's call
`client.heartbeat(current_jobs=0, status="online")` does not bind against
`BackendClient.heartbeat(self, current_agents=0, status="online")` —
`current_jobs` names no parameter, so every iteration of the loop raises
`TypeError` instead of POSTing anything; moreover `__main__.py` starts the
loop as `heartbeat_loop(client, config, shutdown_event, manager)`, four
positional arguments against a three-parameter function, and
`heartbeat_loop` has no `manager` parameter at all, so the loop can never
read `UniverseManager.running_agent_count`. -/
theorem C2_heartbeat_call_does_not_bind :
    bindsOk backendClientHeartbeatParams 0 heartbeatLoopCallKwargs = false ∧
    bindsOk heartbeatLoopParams mainHeartbeatLoopCallPositional [] = false ∧
    heartbeatLoopParams.contains "manager" = false := by
  decide

/-- A worker row used in the heartbeat counterexample. -/
def c4Worker : WorkerRow :=
  { id := 1
    hostname := "host1"
    current_agents := 0
    max_concurrent_agents := 4
    status := "online"
    last_heartbeat_at := 10
    registered_at := 5
    auth_token_hash := "h" }

/-- C4 (counterexample): a heartbeat for the known worker 1 carrying the
status string `"resting"` stores `"resting"` verbatim: the stored status is
neither `"online"` nor `"offline"`, so no clamping to that set happens. -/
theorem C4_counterexample :
    worker_heartbeat [c4Worker] 1 { current_agents := 3, status := "resting" } 50 =
      Except.ok [{ c4Worker with
                    last_heartbeat_at := 50
                    current_agents := 3
                    status := "resting" }] ∧
    ("resting" ∉ (["online", "offline"] : List String)) := by
  constructor
  · rfl
  · decide

/-- C4 (amended): `worker_heartbeat` on a known worker id stores the
request's `current_agents` and `status` values verbatim — whatever string
`status` holds — and stamps `last_heartbeat_at`; rows with other ids are
untouched; an unknown id yields 404.  No clamping of the status to
\x7bonline, offline\x7d is performed. -/
theorem C4_amended_status_stored_verbatim (db : List WorkerRow) (wid : Nat)
    (req : HeartbeatRequest) (now : Nat) :
    (∀ out, worker_heartbeat db wid req now = Except.ok out →
      ∀ w ∈ out, w.id = wid →
        w.status = req.status ∧ w.current_agents = req.current_agents ∧
        w.last_heartbeat_at = now) ∧
    (worker_heartbeat db wid req now = Except.error 404 ↔
      ∀ w ∈ db, w.id ≠ wid) := by
  constructor
  · intro out hout w hw hid
    unfold worker_heartbeat at hout
    by_cases hany : db.any (fun w => w.id == wid) = true
    · rw [if_pos hany] at hout
      obtain rfl : db.map (fun w => if w.id == wid then applyHeartbeat req now w else w) = out :=
        by injection hout
      obtain ⟨v, hv, hvw⟩ := List.mem_map.mp hw
      by_cases hvid : v.id == wid
      · rw [if_pos hvid] at hvw
        subst hvw
        exact ⟨rfl, rfl, rfl⟩
      · rw [if_neg hvid] at hvw
        subst hvw
        exact absurd hid (by simpa using hvid)
    · rw [if_neg hany] at hout
      exact absurd hout (by simp)
  · unfold worker_heartbeat
    by_cases hany : db.any (fun w => w.id == wid) = true
    · rw [if_pos hany]
      simp only [List.any_eq_true, beq_iff_eq] at hany
      obtain ⟨w, hw, hwid⟩ := hany
      constructor
      · intro h
        exact absurd h (by simp)
      · intro h
        exact absurd hwid (h w hw)
    · rw [if_neg hany]
      rw [Bool.not_eq_true, List.any_eq_false] at hany
      constructor
      · intro _ w hw
        have hne := hany w hw
        simpa using hne
      · intro _
        rfl

/-- C4 (witness): the amended statement evaluated on a concrete registry —
the stored status for worker 2 equals the request's `"suspended"` string,
and the unknown id 9 yields 404. -/
theorem C4_amended_status_stored_verbatim_witness :
    (worker_heartbeat
        [{ c4Worker with id := 2 }] 2 { current_agents := 1, status := "suspended" } 60 =
      Except.ok [{ c4Worker with
                    id := 2
                    last_heartbeat_at := 60
                    current_agents := 1
                    status := "suspended" }]) ∧
    ({ c4Worker with
        id := 2
        last_heartbeat_at := 60
        current_agents := 1
        status := "suspended" } : WorkerRow).status = "suspended" ∧
    worker_heartbeat [c4Worker] 9 {} 0 = Except.error 404 := by
  refine ⟨rfl, ?_, ?_⟩
  · exact ((C4_amended_status_stored_verbatim
        [{ c4Worker with id := 2 }] 2 { current_agents := 1, status := "suspended" } 60).1
        _ rfl _ (by decide) rfl).1
  · exact (C4_amended_status_stored_verbatim [c4Worker] 9 {} 0).2.mpr (by decide)

/-- Concrete worktree root `/tmp/u1` for the sibling-directory escape. -/
def c10Worktree : AbsPath := ["tmp", "u1"]

/-- Concrete relative input `../u1x/f`. -/
def c10Rel : List PathComp :=
  [PathComp.dotdot, PathComp.name "u1x", PathComp.name "f"]

/-- C10: the containment guard of `safe_resolve` is a string-prefix test on
rendered paths, not directory containment: with worktree root `/tmp/u1` and
relative input `../u1x/f` the resolved target `/tmp/u1x/f` lies outside the
directory `/tmp/u1`, yet `"/tmp/u1"` is a string prefix of `"/tmp/u1x/f"`,
so `safe_resolve` accepts it and the file tools proceed to access the
sibling directory's file. -/
theorem C10_sibling_directory_escape :
    execute_file_tool c10Worktree c10Rel = Sum.inl ["tmp", "u1x", "f"] ∧
    insideDir c10Worktree ["tmp", "u1x", "f"] = false ∧
    startsWithStr (render c10Worktree) (render ["tmp", "u1x", "f"]) = true := by
  refine ⟨by decide, by decide, by decide⟩

/-- The outer turn loop itself emits no terminal event: `agent_done` and
`agent_error` are emitted only after the loop, by the handlers around it. -/
theorem runLoop_no_terminal (o : Nat → TurnOutcome) :
    ∀ fuel t cur, countDone (runLoop o fuel t cur).1 = 0 ∧
      countError (runLoop o fuel t cur).1 = 0 := by
  intro fuel
  induction fuel with
  | zero =>
      intro t cur
      simp [runLoop, countDone, countError]
  | succ fuel ih =>
      intro t cur
      cases h : o t with
      | cancelled =>
          simp [runLoop, h, countDone, countError]
      | err m =>
          simp [runLoop, h, countDone, countError]
      | ok finished =>
          cases finished with
          | true => simp [runLoop, h, countDone, countError]
          | false =>
              have hrec := ih (t + 1) t
              simp only [countDone, countError] at hrec
              simp [runLoop, h, countDone, countError, hrec.1, hrec.2]

/-- C5: every run of `run_agent` ends in exactly one of the three outcomes:
cancellation gives status `paused`, re-raises, and emits no terminal event;
any other exception gives status `error` and exactly one `agent_error`;
clean exit of the outer loop gives status `completed` and exactly one
`agent_done` — in particular exactly one of `agent_done`/`agent_error` is
emitted for every terminal status, never both. -/
theorem C5_run_agent_terminal_trichotomy (o : Nat → TurnOutcome)
    (maxTurns : Nat) :
    ((run_agent o maxTurns).status = "completed" ∧
      countDone (run_agent o maxTurns).events = 1 ∧
      countError (run_agent o maxTurns).events = 0 ∧
      (run_agent o maxTurns).reraisedCancel = false) ∨
    ((run_agent o maxTurns).status = "paused" ∧
      countDone (run_agent o maxTurns).events = 0 ∧
      countError (run_agent o maxTurns).events = 0 ∧
      (run_agent o maxTurns).reraisedCancel = true) ∨
    ((run_agent o maxTurns).status = "error" ∧
      countError (run_agent o maxTurns).events = 1 ∧
      countDone (run_agent o maxTurns).events = 0 ∧
      (run_agent o maxTurns).reraisedCancel = false) := by
  have hnt := runLoop_no_terminal o maxTurns 1 0
  unfold run_agent
  cases hexit : (runLoop o maxTurns 1 0).2.1 with
  | clean =>
      left
      simp only [countDone, countError] at hnt ⊢
      simp [hexit, List.countP_cons, List.countP_append, hnt.1, hnt.2]
  | cancelledExit =>
      right; left
      simp only [countDone, countError] at hnt ⊢
      simp [hexit, List.countP_cons, hnt.1, hnt.2]
  | errExit m =>
      right; right
      simp only [countDone, countError] at hnt ⊢
      simp [hexit, List.countP_cons, List.countP_append, hnt.1, hnt.2]

/-- `String.data` distributes over append. -/
theorem data_append (a b : String) : (a ++ b).data = a.data ++ b.data := by
  cases a
  cases b
  rfl

/-- A character list is a prefix of itself followed by anything. -/
theorem isPrefixOf_append_self (l t : List Char) :
    l.isPrefixOf (l ++ t) = true := by
  induction l with
  | nil => simp [List.isPrefixOf]
  | cons a as ih => simp [List.isPrefixOf, ih]

/-- The string returned when `execute_tool` catches the `ValueError` of
`safe_resolve` starts with `"Error: Path traversal blocked"`. -/
theorem error_string_marks_traversal (r : String) :
    startsWithStr "Error: Path traversal blocked"
      ("Error: " ++ ("Path traversal blocked: " ++ r)) = true := by
  have h2 : "Error: ".data ++ "Path traversal blocked: ".data
      = "Error: Path traversal blocked".data ++ ": ".data := by decide
  have h1 : ("Error: " ++ ("Path traversal blocked: " ++ r)).data
      = "Error: Path traversal blocked".data ++ (": ".data ++ r.data) := by
    rw [data_append, data_append, ← List.append_assoc, h2, List.append_assoc]
  unfold startsWithStr
  rw [h1]
  exact isPrefixOf_append_self _ _

/-- C6: for every worktree root `w` and relative input `p` to a file tool,
either the resolved absolute path of `w/p` starts with `w`'s resolved
absolute path (the string-prefix condition), in which case the tool goes on
to access exactly that path — or the tool performs no file access and
returns a string starting with `"Error: Path traversal blocked"`.  No
input, `../` or otherwise, can make a file tool access a path that fails
the prefix condition. -/
theorem C6_no_access_outside_prefix (w : AbsPath) (p : List PathComp) :
    (∃ t, execute_file_tool w p = Sum.inl t ∧
      startsWithStr (render w) (render t) = true) ∨
    (∃ s, execute_file_tool w p = Sum.inr s ∧
      startsWithStr "Error: Path traversal blocked" s = true) := by
  unfold execute_file_tool safe_resolve
  by_cases h : startsWithStr (render w) (render (resolveRel w p)) = true
  · left
    exact ⟨resolveRel w p, by simp [h], h⟩
  · right
    refine ⟨"Error: " ++ ("Path traversal blocked: " ++ renderRel p), ?_, ?_⟩
    · simp [h]
    · exact error_string_marks_traversal (renderRel p)

/-- C7: `GET /api/workers/credentials/{key_name}` rejects with 401 when no
worker's stored `auth_token_hash` equals the hash of the presented Bearer
token (also when the header carries no Bearer token at all), with 403 when
the matched worker is offline, with 400 when `key_name` is outside the
allow-list, and with 404 when the secret store yields no value — applied in
exactly that order: in particular an invalid token yields 401 for every
`key_name`, also one outside the allow-list. -/
theorem C7_credential_check_order (hash : String → String)
    (db : List CredWorker) (store : String → String) (keyName authz : String) :
    (startsWithStr "Bearer " authz = true →
      (∀ w ∈ db, w.auth_token_hash ≠ hash (tokenOfHeader authz)) →
      get_worker_credential hash db store keyName authz = Except.error 401) ∧
    (startsWithStr "Bearer " authz = false →
      get_worker_credential hash db store keyName authz = Except.error 401) ∧
    (∀ w, startsWithStr "Bearer " authz = true →
      db.find? (fun v => v.auth_token_hash == hash (tokenOfHeader authz)) = some w →
      w.status = "offline" →
      get_worker_credential hash db store keyName authz = Except.error 403) ∧
    (∀ w, startsWithStr "Bearer " authz = true →
      db.find? (fun v => v.auth_token_hash == hash (tokenOfHeader authz)) = some w →
      w.status ≠ "offline" →
      allowedCredentialKeys.contains keyName = false →
      get_worker_credential hash db store keyName authz = Except.error 400) ∧
    (∀ w, startsWithStr "Bearer " authz = true →
      db.find? (fun v => v.auth_token_hash == hash (tokenOfHeader authz)) = some w →
      w.status ≠ "offline" →
      allowedCredentialKeys.contains keyName = true →
      store keyName = "" →
      get_worker_credential hash db store keyName authz = Except.error 404) := by
  refine ⟨?_, ?_, ?_, ?_, ?_⟩
  · intro hb hnone
    have hfind : db.find? (fun v => v.auth_token_hash == hash (tokenOfHeader authz)) = none := by
      rw [List.find?_eq_none]
      intro w hw
      simpa using hnone w hw
    simp [get_worker_credential, hb, hfind]
  · intro hb
    simp [get_worker_credential, hb]
  · intro w hb hfind hoff
    simp [get_worker_credential, hb, hfind, hoff]
  · intro w hb hfind hoff hkey
    have hkey' : keyName ∉ allowedCredentialKeys := by simpa using hkey
    simp [get_worker_credential, hb, hfind, hoff, hkey']
  · intro w hb hfind hoff hkey hmiss
    have hkey' : keyName ∈ allowedCredentialKeys := by simpa using hkey
    simp [get_worker_credential, hb, hfind, hoff, hkey', hmiss]

/-- Registry rows for the credential-broker witness: worker 1 is online with
token hash `"tokA"`, worker 2 offline with token hash `"tokB"`; the hash
function is the identity and only `ANTHROPIC_API_KEY` resolves. -/
def c7Db : List CredWorker :=
  [{ id := 1, auth_token_hash := "tokA", status := "online" },
   { id := 2, auth_token_hash := "tokB", status := "offline" }]

def c7Store : String → String :=
  fun k => if k == "ANTHROPIC_API_KEY" then "sk-secret" else ""

/-- C7 (witness): the check order evaluated on a concrete registry — an
unknown token gets 401 even with a key outside the allow-list, the offline
worker's token gets 403, a disallowed key with a valid online token gets
400, and an allow-listed key the store cannot resolve gets 404. -/
theorem C7_credential_check_order_witness :
    get_worker_credential id c7Db c7Store "NOT_A_KEY" "Bearer nope" =
      Except.error 401 ∧
    get_worker_credential id c7Db c7Store "ANTHROPIC_API_KEY" "Bearer tokB" =
      Except.error 403 ∧
    get_worker_credential id c7Db c7Store "NOT_A_KEY" "Bearer tokA" =
      Except.error 400 ∧
    get_worker_credential id c7Db c7Store "OPENAI_API_KEY" "Bearer tokA" =
      Except.error 404 := by
  refine ⟨?_, ?_, ?_, ?_⟩
  · exact (C7_credential_check_order id c7Db c7Store "NOT_A_KEY" "Bearer nope").1
      (by decide) (by decide)
  · exact (C7_credential_check_order id c7Db c7Store "ANTHROPIC_API_KEY" "Bearer tokB").2.2.1
      { id := 2, auth_token_hash := "tokB", status := "offline" }
      (by decide) (by decide) rfl
  · exact (C7_credential_check_order id c7Db c7Store "NOT_A_KEY" "Bearer tokA").2.2.2.1
      { id := 1, auth_token_hash := "tokA", status := "online" }
      (by decide) (by decide) (by decide) (by decide)
  · exact (C7_credential_check_order id c7Db c7Store "OPENAI_API_KEY" "Bearer tokA").2.2.2.2
      { id := 1, auth_token_hash := "tokA", status := "online" }
      (by decide) (by decide) (by decide) (by decide) (by decide)

/-- C8: `LLMClient.chat` makes at most two HTTP attempts; when the first
attempt returns 401 and a credential provider is configured, it retries
exactly once, the retry using the key freshly fetched from the provider;
a 401 on the retry, or a 401 with no provider configured, propagates as a
raised error. -/
theorem C8_llm_401_retry_once (cached pk : String) (provider : Option String)
    (resp : Nat → Nat) :
    (chat cached provider resp).keysUsed.length ≤ 2 ∧
    (resp 0 = 401 →
      (chat cached (some pk) resp).keysUsed =
        [getApiKey cached (some pk) false, pk] ∧
      (resp 1 = 401 →
        (chat cached (some pk) resp).outcome = ChatOutcome.raised 401)) ∧
    (resp 0 = 401 →
      (chat cached none resp).outcome = ChatOutcome.raised 401 ∧
      (chat cached none resp).keysUsed.length = 1) := by
  refine ⟨?_, ?_, ?_⟩
  · unfold chat
    by_cases h : (resp 0 == 401 && provider.isSome) = true
    · simp only [h, if_true]
      split <;> simp
    · by_cases h0 : resp 0 < 400 <;> simp [h, h0]
  · intro h401
    have hkey1 : getApiKey (getApiKey cached (some pk) false) (some pk) true = pk := by
      simp [getApiKey]
    constructor
    · unfold chat
      simp only [h401, hkey1, Option.isSome_some, Bool.and_true, beq_self_eq_true, if_true]
      split <;> rfl
    · intro h401r
      unfold chat
      simp [h401, h401r, hkey1]
  · intro h401
    unfold chat
    simp [h401]

/-- C8 (witness): with cached key `"k0"`, provider key `"k1"` and a server
answering 401 to everything, `chat` uses `["k0", "k1"]` and raises 401;
with no provider it stops after the single attempt with `"k0"`. -/
theorem C8_llm_401_retry_once_witness :
    ((fun _ : Nat => 401) 0 = 401) ∧
    (chat "k0" (some "k1") (fun _ => 401)).keysUsed = ["k0", "k1"] ∧
    (chat "k0" (some "k1") (fun _ => 401)).outcome = ChatOutcome.raised 401 ∧
    (chat "k0" none (fun _ => 401)).outcome = ChatOutcome.raised 401 ∧
    (chat "k0" none (fun _ => 401)).keysUsed.length = 1 := by
  have h := C8_llm_401_retry_once "k0" "k1" (some "k1") (fun _ => 401)
  refine ⟨rfl, ?_, (h.2.1 rfl).2 rfl, (h.2.2 rfl).1, (h.2.2 rfl).2⟩
  exact (h.2.1 rfl).1

theorem pickLeastLoaded_some (l : List DispatchWorker) :
    ∀ b, ∃ w, pickLeastLoaded (some b) l = some w := by
  induction l with
  | nil => intro b; exact ⟨b, rfl⟩
  | cons v vs ih =>
      intro b
      simp only [pickLeastLoaded]
      exact ih _

theorem pickLeastLoaded_none_iff (l : List DispatchWorker) :
    pickLeastLoaded none l = none ↔ l = [] := by
  cases l with
  | nil => simp [pickLeastLoaded]
  | cons v vs =>
      simp only [pickLeastLoaded]
      obtain ⟨w, hw⟩ := pickLeastLoaded_some vs v
      simp [hw]

theorem pickLeastLoaded_mem (l : List DispatchWorker) :
    ∀ acc w, pickLeastLoaded acc l = some w → w ∈ l ∨ acc = some w := by
  induction l with
  | nil =>
      intro acc w h
      cases acc with
      | none => exact absurd h (by simp [pickLeastLoaded])
      | some b => exact Or.inr (by simpa [pickLeastLoaded] using h)
  | cons v vs ih =>
      intro acc w h
      cases acc with
      | none =>
          simp only [pickLeastLoaded] at h
          rcases ih (some v) w h with hm | he
          · exact Or.inl (List.mem_cons_of_mem v hm)
          · obtain rfl : v = w := by injection he
            exact Or.inl (by simp)
      | some b =>
          simp only [pickLeastLoaded] at h
          rcases ih _ w h with hm | he
          · exact Or.inl (List.mem_cons_of_mem v hm)
          · by_cases hc : v.current_agents < b.current_agents
            · rw [if_pos hc] at he
              obtain rfl : v = w := by injection he
              exact Or.inl (by simp)
            · rw [if_neg hc] at he
              exact Or.inr he

theorem pickLeastLoaded_min (l : List DispatchWorker) :
    ∀ acc w, pickLeastLoaded acc l = some w →
      (∀ v ∈ l, w.current_agents ≤ v.current_agents) ∧
      (∀ b, acc = some b → w.current_agents ≤ b.current_agents) := by
  induction l with
  | nil =>
      intro acc w h
      refine ⟨by simp, ?_⟩
      intro b hb
      rw [hb] at h
      simp only [pickLeastLoaded] at h
      obtain rfl : b = w := by injection h
      exact Nat.le_refl _
  | cons v vs ih =>
      intro acc w h
      cases acc with
      | none =>
          simp only [pickLeastLoaded] at h
          have hv := (ih (some v) w h).2 v rfl
          refine ⟨?_, by simp⟩
          intro u hu
          rcases List.mem_cons.mp hu with rfl | hm
          · exact hv
          · exact (ih (some v) w h).1 u hm
      | some b =>
          simp only [pickLeastLoaded] at h
          have hkept := (ih _ w h).2 _ rfl
          by_cases hc : v.current_agents < b.current_agents
          · rw [if_pos hc] at h hkept
            refine ⟨?_, ?_⟩
            · intro u hu
              rcases List.mem_cons.mp hu with rfl | hm
              · exact hkept
              · exact (ih (some v) w h).1 u hm
            · intro c hcb
              obtain rfl : b = c := by injection hcb
              exact Nat.le_trans hkept (Nat.le_of_lt hc)
          · rw [if_neg hc] at h hkept
            refine ⟨?_, ?_⟩
            · intro u hu
              rcases List.mem_cons.mp hu with rfl | hm
              · exact Nat.le_trans hkept (Nat.le_of_not_lt hc)
              · exact (ih (some b) w h).1 u hm
            · intro c hcb
              obtain rfl : b = c := by injection hcb
              exact hkept

/-- Tied worker registered first (oldest). -/
def c9A : DispatchWorker :=
  { id := 1, status := "online", current_agents := 0,
    max_concurrent_agents := 4, registered_at := 100,
    worker_address := "http://a" }

/-- Tied worker registered later (newest). -/
def c9B : DispatchWorker :=
  { id := 2, status := "online", current_agents := 0,
    max_concurrent_agents := 4, registered_at := 200,
    worker_address := "http://b" }

/-- C9 (counterexample): the worker-selection query `ORDER BY current_agents
ASC LIMIT 1` has no secondary sort key, so its result on tied rows depends
on the scan order of the table, not on the rows themselves: the same two
online free workers, tied at `current_agents = 0`, yield the later-registered
worker under one row order and the earlier-registered one under the other —
the tie-break is neither deterministic in the table contents nor by oldest
registration. -/
theorem C9_counterexample :
    dispatch_universe [c9B, c9A] = Except.ok c9B ∧
    dispatch_universe [c9A, c9B] = Except.ok c9A ∧
    c9B ≠ c9A ∧
    List.Perm [c9B, c9A] [c9A, c9B] ∧
    c9A.registered_at < c9B.registered_at ∧
    c9B.current_agents = c9A.current_agents := by
  refine ⟨rfl, rfl, by decide, List.Perm.swap c9A c9B [], by decide, by decide⟩

/-- C9 (amended): `POST /api/universes/launch` fails with 503 exactly when
no online worker with `current_agents < max_concurrent_agents` exists, and
otherwise selects an online worker with free capacity whose `current_agents`
is minimal among all such workers; ties are broken by the database's scan
order, which is arbitrary, not deterministically by oldest registration. -/
theorem C9_amended_least_loaded_or_503 (rows : List DispatchWorker) :
    (dispatch_universe rows = Except.error 503 ↔
      ∀ w ∈ rows, hasCapacity w = false) ∧
    (∀ w, dispatch_universe rows = Except.ok w →
      w ∈ rows ∧ hasCapacity w = true ∧
      ∀ v ∈ rows, hasCapacity v = true →
        w.current_agents ≤ v.current_agents) := by
  constructor
  · constructor
    · intro h
      intro w hw
      cases hsel : selectWorker rows with
      | none =>
          have hnil : rows.filter hasCapacity = [] :=
            (pickLeastLoaded_none_iff _).mp hsel
          by_contra hcap
          have hmem : w ∈ rows.filter hasCapacity :=
            List.mem_filter.mpr ⟨hw, by simpa using hcap⟩
          rw [hnil] at hmem
          exact absurd hmem (by simp)
      | some v =>
          simp [dispatch_universe, hsel] at h
    · intro h
      have hnil : rows.filter hasCapacity = [] := by
        rw [List.filter_eq_nil_iff]
        intro w hw
        simp [h w hw]
      simp [dispatch_universe, selectWorker, hnil, pickLeastLoaded]
  · intro w h
    cases hsel : selectWorker rows with
    | none =>
        simp [dispatch_universe, hsel] at h
    | some v =>
        simp only [dispatch_universe, hsel] at h
        have hvw : v = w := by injection h
        rw [hvw] at hsel
        have hmemf : w ∈ rows.filter hasCapacity := by
          rcases pickLeastLoaded_mem _ none w hsel with hm | he
          · exact hm
          · exact absurd he (by simp)
        obtain ⟨hmem, hcap⟩ := List.mem_filter.mp hmemf
        refine ⟨hmem, hcap, ?_⟩
        intro u hu hucap
        exact (pickLeastLoaded_min _ none w hsel).1 u
          (List.mem_filter.mpr ⟨hu, hucap⟩)

/-- C9 (witness): the amended statement evaluated concretely — the empty
registry 503s, and on the one-worker registry the selected worker is that
worker, has capacity, and is trivially least loaded. -/
theorem C9_amended_least_loaded_or_503_witness :
    dispatch_universe [] = Except.error 503 ∧
    (c9A ∈ [c9A] ∧ hasCapacity c9A = true ∧
      ∀ v ∈ [c9A], hasCapacity v = true →
        c9A.current_agents ≤ v.current_agents) :=
  ⟨(C9_amended_least_loaded_or_503 []).1.mpr (by simp),
   (C9_amended_least_loaded_or_503 [c9A]).2 c9A rfl⟩

theorem bumpAggregates_id (ev : IterationDetail) (cid : Nat) (c : Conv) :
    (bumpAggregates ev cid c).id = c.id := by
  unfold bumpAggregates
  split <;> rfl

theorem bumpAggregates_universe_id (ev : IterationDetail) (cid : Nat) (c : Conv) :
    (bumpAggregates ev cid c).universe_id = c.universe_id := by
  unfold bumpAggregates
  split <;> rfl

theorem bumpAggregates_agent_id (ev : IterationDetail) (cid : Nat) (c : Conv) :
    (bumpAggregates ev cid c).agent_id = c.agent_id := by
  unfold bumpAggregates
  split <;> rfl

theorem bumpAggregates_created_at (ev : IterationDetail) (cid : Nat) (c : Conv) :
    (bumpAggregates ev cid c).created_at = c.created_at := by
  unfold bumpAggregates
  split <;> rfl

/-- The aggregate update commutes with the conversation-lookup filter: it
changes no field the `WHERE` clause reads. -/
theorem filter_map_bumpAggregates (ev : IterationDetail) (cid : Nat)
    (u a : String) : ∀ l : List Conv,
    (l.map (bumpAggregates ev cid)).filter
        (fun c => c.universe_id == u && c.agent_id == a)
      = (l.filter (fun c => c.universe_id == u && c.agent_id == a)).map
          (bumpAggregates ev cid) := by
  intro l
  induction l with
  | nil => rfl
  | cons c cs ih =>
      by_cases hp : (c.universe_id == u && c.agent_id == a) = true
      · simp only [List.map_cons, List.filter_cons]
        rw [bumpAggregates_universe_id, bumpAggregates_agent_id]
        simp [hp, ih]
      · simp only [List.map_cons, List.filter_cons]
        rw [bumpAggregates_universe_id, bumpAggregates_agent_id]
        simp [hp, ih]

/-- The fold of `ORDER BY created_at DESC LIMIT 1` commutes with a map that
leaves `created_at` unchanged. -/
theorem pickNewest_map (f : Conv → Conv)
    (hf : ∀ c, (f c).created_at = c.created_at) :
    ∀ (l : List Conv) (acc : Option Conv),
      pickNewest (Option.map f acc) (l.map f) = Option.map f (pickNewest acc l) := by
  intro l
  induction l with
  | nil =>
      intro acc
      cases acc <;> simp [pickNewest]
  | cons c cs ih =>
      intro acc
      cases acc with
      | none =>
          simp only [List.map_cons, Option.map_none, pickNewest]
          exact ih (some c)
      | some b =>
          simp only [List.map_cons, Option.map_some, pickNewest]
          rw [hf b, hf c]
          have hkept : (if b.created_at < c.created_at then f c else f b)
              = f (if b.created_at < c.created_at then c else b) := by
            by_cases hc : b.created_at < c.created_at <;> simp [hc]
          rw [hkept]
          exact ih (some _)

/-- The conversation lookup of `insert_turn` is unaffected by the aggregate
update of a previous `insert_turn` (which touches only totals). -/
theorem newestConv_map_bumpAggregates (ev : IterationDetail) (cid : Nat)
    (convs : List Conv) (u a : String) :
    newestConv (convs.map (bumpAggregates ev cid)) u a
      = Option.map (bumpAggregates ev cid) (newestConv convs u a) := by
  unfold newestConv
  rw [filter_map_bumpAggregates]
  exact pickNewest_map _ (bumpAggregates_created_at ev cid) _ none

theorem turnKeyPresent_append_self (ts : List TurnRow) (cid tn itn : Nat)
    (pl : String) :
    turnKeyPresent (ts ++ [⟨cid, tn, itn, pl⟩]) cid tn itn = true := by
  simp [turnKeyPresent]

/-- Feeding the same `iteration_detail` event to `insert_turn` twice leaves
the store exactly as feeding it once: the second INSERT hits the
unique-key violation, is swallowed by the `except`, and the aggregate
UPDATE never runs. -/
theorem insert_turn_idem (db : ConvDB) (ev : IterationDetail) :
    insert_turn (insert_turn db ev) ev = insert_turn db ev := by
  cases hconv : newestConv db.convs ev.universe_id ev.agent_id with
  | none =>
      have h1 : insert_turn db ev = db := by
        simp [insert_turn, hconv]
      rw [h1]
      exact h1
  | some conv =>
      by_cases hkey :
          turnKeyPresent db.turns conv.id ev.turn_number ev.iteration = true
      · have h1 : insert_turn db ev = db := by
          simp [insert_turn, hconv, hkey]
        rw [h1]
        exact h1
      · have h1 : insert_turn db ev =
            ConvDB.mk (db.convs.map (bumpAggregates ev conv.id))
              (db.turns ++ [⟨conv.id, ev.turn_number, ev.iteration, ev.payload⟩]) := by
          simp [insert_turn, hconv, hkey]
        rw [h1]
        have hconv' :
            newestConv (db.convs.map (bumpAggregates ev conv.id))
                ev.universe_id ev.agent_id
              = some (bumpAggregates ev conv.id conv) := by
          rw [newestConv_map_bumpAggregates, hconv]
          rfl
        have hkey' :
            turnKeyPresent
                (db.turns ++ [⟨conv.id, ev.turn_number, ev.iteration, ev.payload⟩])
                (bumpAggregates ev conv.id conv).id ev.turn_number ev.iteration
              = true := by
          rw [bumpAggregates_id]
          exact turnKeyPresent_append_self _ _ _ _ _
        simp [insert_turn, hconv', hkey']

/-- C3: processing the same `iteration_detail` event twice against the
conversation store leaves exactly the state of processing it once — the
duplicate on (conversation_id, turn_number, iteration_number) is ignored and
the aggregates (total_iterations, total_turns, total_input_tokens,
total_output_tokens) are not double-counted — and hence replaying a captured
event sequence with a duplicated event into the control plane yields the
same final `conversations`/`turns` content as processing each event once. -/
theorem C3_duplicate_iteration_detail_absorbed (db : ConvDB)
    (ev : IterationDetail) (pre post : List IterationDetail) :
    insert_turn (insert_turn db ev) ev = insert_turn db ev ∧
    replayTurns db (pre ++ ev :: ev :: post) = replayTurns db (pre ++ ev :: post) := by
  refine ⟨insert_turn_idem db ev, ?_⟩
  unfold replayTurns
  rw [List.foldl_append, List.foldl_append]
  simp only [List.foldl_cons]
  rw [insert_turn_idem]

end BotArmy
